import Mathlib

/-!
Verification of the caption-reconstruction core of the repository
(`src/common/cc_parser.py`).  The function `parse_cc` loads a JSON
caption-event stream, folds the events into paragraphs through an
accumulation buffer, writes the space-joined paragraphs to one or two
destinations, and returns the paragraph list (or `None` when loading
raised the module's `RuntimeError`).

Shallow embedding choices:
* Python strings become `List Char`; `str.strip()` becomes `strip`
  (drop whitespace from both ends, whitespace being `Char.isWhitespace`).
* A JSON mapping field that may be absent becomes an `Option`:
  `event.get("segs", [])` is `segs.getD []`, `seg.get("utf8", "")` is
  `utf8.getD []`, `event.get("aAppend") == 1` is `aAppend = some 1`.
* `load_data` either returns parsed data or raises `RuntimeError`; the
  caller `parse_cc` only distinguishes those two outcomes, so the load
  result is `Option Data` (`none` = the caught `RuntimeError`).
* The filesystem is an oracle `writeOk : path → Bool` saying whether
  `open(path, "w")` succeeds.  `parse_cc` returns the pair of
  (normal return value or propagated `OSError`, list of performed
  writes as (path, content) pairs, in order).
-/

namespace CCParser

abbrev Str := List Char

/-- String literal to character-list coercion used for concrete inputs. -/
def toL (s : String) : Str := s.toList

/-- The whitespace class used by `str.strip()` in the embedding. -/
def isWs (c : Char) : Bool := c.isWhitespace

/-- Python `s.strip()`: remove leading and trailing whitespace. -/
def strip (s : Str) : Str := ((s.dropWhile isWs).reverse.dropWhile isWs).reverse

/-- The non-whitespace characters of `s`, in order (used to state the
order-preservation invariant). -/
def noWs (s : Str) : Str := s.filter (fun c => !isWs c)

/-- One entry of an event's `"segs"` list; `utf8 = none` models a
mapping without a `"utf8"` key. -/
structure Seg where
  utf8 : Option Str
deriving DecidableEq

/-- One caption event: `segs = none` models a mapping without a
`"segs"` key, `aAppend` is the raw optional integer flag
(`event.get("aAppend")`). -/
structure Event where
  segs : Option (List Seg)
  aAppend : Option Int
deriving DecidableEq

/-- The parsed JSON document: `events = none` models a mapping without
an `"events"` key (`data.get("events", [])`). -/
structure Data where
  events : Option (List Event)
deriving DecidableEq

/-- `text = "".join(seg.get("utf8", "") for seg in event.get("segs", []))`. -/
def eventText (e : Event) : Str :=
  ((e.segs.getD []).map (fun s => s.utf8.getD [])).flatten

/-- One iteration of the `for event in data.get("events", [])` loop of
`parse_cc`, acting on the state (paragraphs so far, accumulation buffer). -/
def step (st : List Str × Str) (e : Event) : List Str × Str :=
  let text := eventText e
  if strip text = [] then
    if strip st.2 = [] then st else (st.1 ++ [strip st.2], [])
  else if e.aAppend = some 1 then
    (st.1, st.2 ++ ' ' :: strip text)
  else if strip st.2 = [] then
    (st.1, strip text)
  else
    (st.1 ++ [strip st.2], strip text)

/-- The pure reconstruction pass of `parse_cc`: the event loop followed
by the final flush of a non-empty buffer. -/
def parse_events (events : List Event) : List Str :=
  let st := events.foldl step ([], [])
  if strip st.2 = [] then st.1 else st.1 ++ [strip st.2]

/-- Python `" ".join(ps)`. -/
def joinSpace : List Str → Str
  | [] => []
  | [p] => p
  | p :: q :: ps => p ++ ' ' :: joinSpace (q :: ps)

/-- Python `str(out_file)` for the optional argument: `str(None)` is the
literal string `"None"`. -/
def pyStr : Option Str → Str
  | none => toL "None"
  | some p => p

/-- The uncaught exception `parse_cc` can propagate: the `OSError` from
`open(path, "w")` on an uncreatable destination. -/
inductive PyErr
  | ioError
deriving DecidableEq

/-- `parse_cc(source, out_file, **kwargs)`.
`load` is the outcome of `load_data(source)` (`none` = caught
`RuntimeError`), `output_file` the optional `kwargs["output_file"]`
(the Python truthiness test makes `some []` behave like `none`),
`writeOk` the filesystem oracle.  Result: (returned value or propagated
`OSError`, writes performed in order). -/
def parse_cc (load : Option Data) (out_file output_file : Option Str)
    (writeOk : Str → Bool) :
    Except PyErr (Option (List Str)) × List (Str × Str) :=
  match load with
  | none => (.ok none, [])
  | some d =>
    let paragraphs := parse_events (d.events.getD [])
    let blob := joinSpace paragraphs
    let p1 := pyStr out_file
    if writeOk p1 then
      match output_file with
      | some p2 =>
        if p2 = [] then (.ok (some paragraphs), [(p1, blob)])
        else if writeOk p2 then
          (.ok (some paragraphs), [(p1, blob), (p2, blob)])
        else (.error .ioError, [(p1, blob)])
      | none => (.ok (some paragraphs), [(p1, blob)])
    else (.error .ioError, [])

/-! ### Whitespace lemmas -/

theorem noWs_nil : noWs [] = [] := rfl

theorem noWs_append (s t : Str) : noWs (s ++ t) = noWs s ++ noWs t :=
  List.filter_append ..

theorem noWs_cons_ws (c : Char) (h : isWs c = true) (s : Str) :
    noWs (c :: s) = noWs s := by
  simp [noWs, h]

theorem noWs_dropWhile (s : Str) : noWs (s.dropWhile isWs) = noWs s := by
  induction s with
  | nil => rfl
  | cons c s ih =>
    by_cases h : isWs c = true
    · rw [List.dropWhile_cons_of_pos h, ih, noWs_cons_ws c h]
    · rw [List.dropWhile_cons_of_neg h]

theorem noWs_reverse (s : Str) : noWs s.reverse = (noWs s).reverse :=
  List.filter_reverse ..

theorem noWs_strip (s : Str) : noWs (strip s) = noWs s := by
  unfold strip
  rw [noWs_reverse, noWs_dropWhile, noWs_reverse, List.reverse_reverse,
    noWs_dropWhile]

theorem strip_eq_nil_iff (s : Str) : strip s = [] ↔ noWs s = [] := by
  constructor
  · intro h
    rw [← noWs_strip, h]
    rfl
  · intro h
    have hall : ∀ c ∈ s, isWs c = true := by
      intro c hc
      have := List.filter_eq_nil_iff.mp h c hc
      simpa using this
    unfold strip
    rw [List.dropWhile_eq_nil_iff.mpr hall]
    rfl

/-! ### Invariants of the reconstruction fold -/

/-- The non-whitespace content already absorbed by a loop state:
emitted paragraphs followed by the buffer, whitespace removed. -/
def absorbed (st : List Str × Str) : Str :=
  (st.1.map noWs).flatten ++ noWs st.2

theorem absorbed_step (st : List Str × Str) (e : Event) :
    absorbed (step st e) = absorbed st ++ noWs (eventText e) := by
  unfold step absorbed
  by_cases ht : strip (eventText e) = []
  · have htw : noWs (eventText e) = [] := (strip_eq_nil_iff _).mp ht
    by_cases hb : strip st.2 = []
    · simp [ht, hb, htw]
    · have hbw := noWs_strip st.2
      simp [ht, hb, htw, hbw, noWs_nil]
  · have htw : noWs (strip (eventText e)) = noWs (eventText e) := noWs_strip _
    by_cases ha : e.aAppend = some 1
    · have hsp : isWs ' ' = true := rfl
      simp [ht, ha, noWs_append, noWs_cons_ws ' ' hsp, htw, List.append_assoc]
    · by_cases hb : strip st.2 = []
      · have hbw : noWs st.2 = [] := (strip_eq_nil_iff _).mp hb
        simp [ht, ha, hb, htw, hbw]
      · have hbw := noWs_strip st.2
        simp [ht, ha, hb, htw, hbw, List.append_assoc]

theorem absorbed_foldl (evs : List Event) (st : List Str × Str) :
    absorbed (evs.foldl step st)
      = absorbed st ++ (evs.map (fun e => noWs (eventText e))).flatten := by
  induction evs generalizing st with
  | nil => simp
  | cons e evs ih =>
    rw [List.foldl_cons, ih, absorbed_step, List.map_cons, List.flatten_cons,
      List.append_assoc]

theorem good_step (st : List Str × Str) (e : Event)
    (h : ∀ p ∈ st.1, p ≠ [] ∧ noWs p ≠ []) :
    ∀ p ∈ (step st e).1, p ≠ [] ∧ noWs p ≠ [] := by
  have hgood : strip st.2 ≠ [] → strip st.2 ≠ [] ∧ noWs (strip st.2) ≠ [] := by
    intro hb
    refine ⟨hb, ?_⟩
    rw [noWs_strip]
    intro hn
    exact hb ((strip_eq_nil_iff _).mpr hn)
  unfold step
  by_cases ht : strip (eventText e) = []
  · by_cases hb : strip st.2 = []
    · simpa [ht, hb] using h
    · intro p hp
      have hp2 : p ∈ st.1 ∨ p = strip st.2 := by simpa [ht, hb] using hp
      rcases hp2 with hp | rfl
      · exact h p hp
      · exact hgood hb
  · by_cases ha : e.aAppend = some 1
    · simpa [ht, ha] using h
    · by_cases hb : strip st.2 = []
      · simpa [ht, ha, hb] using h
      · intro p hp
        have hp2 : p ∈ st.1 ∨ p = strip st.2 := by simpa [ht, ha, hb] using hp
        rcases hp2 with hp | rfl
        · exact h p hp
        · exact hgood hb

theorem good_foldl (evs : List Event) (st : List Str × Str)
    (h : ∀ p ∈ st.1, p ≠ [] ∧ noWs p ≠ []) :
    ∀ p ∈ (evs.foldl step st).1, p ≠ [] ∧ noWs p ≠ [] := by
  induction evs generalizing st with
  | nil => simpa using h
  | cons e evs ih => exact ih (step st e) (good_step st e h)

theorem parse_events_good (evs : List Event) :
    ∀ p ∈ parse_events evs, p ≠ [] ∧ noWs p ≠ [] := by
  unfold parse_events
  have hfold := good_foldl evs ([], []) (by simp)
  by_cases hb : strip (evs.foldl step ([], [])).2 = []
  · simpa [hb] using hfold
  · intro p hp
    have hp2 : p ∈ (evs.foldl step ([], [])).1 ∨ p = strip (evs.foldl step ([], [])).2 := by
      simpa [hb] using hp
    rcases hp2 with hp | rfl
    · exact hfold p hp
    · refine ⟨hb, ?_⟩
      rw [noWs_strip]
      intro hn
      exact hb ((strip_eq_nil_iff _).mpr hn)

theorem noWs_flatten_parse_events (evs : List Event) :
    ((parse_events evs).map noWs).flatten
      = (evs.map (fun e => noWs (eventText e))).flatten := by
  unfold parse_events
  have habs := absorbed_foldl evs ([], [])
  by_cases hb : strip (evs.foldl step ([], [])).2 = []
  · have hbw : noWs (evs.foldl step ([], [])).2 = [] := (strip_eq_nil_iff _).mp hb
    simpa [hb, absorbed, hbw] using habs
  · have hbw := noWs_strip (evs.foldl step ([], [])).2
    simpa [hb, absorbed, hbw] using habs

theorem noWs_joinSpace (ps : List Str) :
    noWs (joinSpace ps) = (ps.map noWs).flatten := by
  induction ps with
  | nil => rfl
  | cons p ps ih =>
    cases ps with
    | nil => simp [joinSpace, noWs]
    | cons q ps =>
      have hsp : isWs ' ' = true := rfl
      rw [joinSpace, noWs_append, noWs_cons_ws ' ' hsp, ih]
      simp [List.append_assoc]

theorem noWs_flatten (l : List Str) :
    noWs l.flatten = (l.map noWs).flatten := by
  induction l with
  | nil => rfl
  | cons s l ih => rw [List.flatten_cons, noWs_append, ih, List.map_cons,
      List.flatten_cons]

theorem foldl_break_events (evs : List Event)
    (h : ∀ e ∈ evs, strip (eventText e) = []) :
    evs.foldl step ([], []) = ([], []) := by
  induction evs with
  | nil => rfl
  | cons e evs ih =>
    have he := h e (List.mem_cons_self e evs)
    have hstep : step ([], []) e = ([], []) := by
      simp only [step]
      rw [if_pos he]
      rfl
    rw [List.foldl_cons, hstep]
    exact ih fun e he => h e (List.mem_cons_of_mem _ he)

theorem parse_events_break (evs : List Event)
    (h : ∀ e ∈ evs, strip (eventText e) = []) :
    parse_events evs = [] := by
  unfold parse_events
  rw [foldl_break_events evs h]
  rfl

/-- An event with one segment carrying text `s` and no append flag. -/
def mkEvent (s : String) : Event := ⟨some [⟨some (toL s)⟩], none⟩

/-- An event with one segment carrying text `s` and `aAppend = 1`. -/
def mkAppendEvent (s : String) : Event := ⟨some [⟨some (toL s)⟩], some 1⟩

/-- `parse_cc` on a successfully loaded source, with every write
succeeding, returns the reconstructed paragraph list. -/
theorem parse_cc_fst_ok (d : Data) (out o : Option Str) :
    (parse_cc (some d) out o (fun _ => true)).1
      = .ok (some (parse_events (d.events.getD []))) := by
  cases o with
  | none => rfl
  | some p2 =>
    by_cases h : p2 = []
    · simp [parse_cc, h]
    · simp [parse_cc, h]

example : parse_events [] = [] := by decide
example : parse_events [mkEvent "Hello world"] = [toL "Hello world"] := by decide
example : parse_events [mkEvent "Hello", ⟨some [], none⟩, mkEvent "World"]
    = [toL "Hello", toL "World"] := by decide
example : parse_events [mkEvent "Hello", mkAppendEvent "there"]
    = [toL "Hello there"] := by decide
example : parse_events [mkEvent "First", mkEvent "Second"]
    = [toL "First", toL "Second"] := by decide
example : parse_events [mkEvent "   "] = [] := by decide
example : parse_cc none (some (toL "a.txt")) none (fun _ => true) = (.ok none, []) := rfl
example : parse_cc (some ⟨some [mkEvent "Hi"]⟩) none none (fun _ => true)
    = (.ok (some [toL "Hi"]), [(toL "None", toL "Hi")]) := rfl
example : parse_cc (some ⟨some [mkEvent "Hi"]⟩) (some (toL "o")) none (fun _ => false)
    = (.error .ioError, []) := rfl

/-! ### The claims -/

/-- Claim C2: when `load_data` raises its source-unavailable
`RuntimeError`, `parse_cc` performs no reconstruction and no writes,
raises nothing to its caller, and returns the absent result `None`. -/
theorem C2_source_unavailable_soft_fail (out_file output_file : Option Str)
    (writeOk : Str → Bool) :
    parse_cc none out_file output_file writeOk = (.ok none, []) := rfl

/-- Claim C3: every paragraph produced by `parse_cc`'s reconstruction
pass is non-empty and not whitespace-only, and the space-join of the
paragraphs carries exactly the non-whitespace characters of all event
texts, in left-to-right reading order (nothing duplicated, nothing
dropped; whitespace-only events contribute nothing). -/
theorem C3_paragraph_invariants (evs : List Event) :
    (∀ p ∈ parse_events evs, p ≠ [] ∧ noWs p ≠ []) ∧
    noWs (joinSpace (parse_events evs)) = noWs ((evs.map eventText).flatten) := by
  refine ⟨parse_events_good evs, ?_⟩
  rw [noWs_joinSpace, noWs_flatten_parse_events, noWs_flatten, List.map_map]
  rfl

theorem C3_paragraph_invariants_witness :
    toL "Hello" ≠ [] ∧ noWs (toL "Hello") ≠ [] :=
  (C3_paragraph_invariants [mkEvent "Hello"]).1 (toL "Hello") (by decide)

/-- Claim C4: an event with non-blank text and `aAppend == 1` appends a
single space followed by the stripped text to the accumulation buffer,
emitting no paragraph and clearing nothing — even when the buffer is
empty; the stream `[{"segs":[{"utf8":"Hello"}]},
{"segs":[{"utf8":"there"}],"aAppend":1}]` yields `["Hello there"]`. -/
theorem C4_append_continuation :
    (∀ st : List Str × Str, ∀ e : Event, strip (eventText e) ≠ [] →
        e.aAppend = some 1 →
        step st e = (st.1, st.2 ++ ' ' :: strip (eventText e))) ∧
    parse_events [mkEvent "Hello", mkAppendEvent "there"]
      = [toL "Hello there"] := by
  refine ⟨?_, by decide⟩
  intro st e ht ha
  simp [step, ht, ha]

theorem C4_append_continuation_witness :
    step ([], []) (mkAppendEvent "there") = ([], ' ' :: toL "there") := by
  have h := C4_append_continuation.1 ([], []) (mkAppendEvent "there")
    (by decide) rfl
  exact h.trans (by decide)

/-- Claim C5: an event whose computed text strips to empty — including
events with a missing `segs` field or a segment with a missing text
field — is a break marker: the stripped buffer is emitted iff it is
non-blank, the buffer is then cleared, and the event contributes no
text; the stream `[Hello], [empty segs], [World]` yields
`["Hello", "World"]`. -/
theorem C5_break_marker :
    (∀ st : List Str × Str, ∀ e : Event, strip (eventText e) = [] →
        step st e = if strip st.2 = [] then st else (st.1 ++ [strip st.2], [])) ∧
    (∀ e : Event, e.segs = none → eventText e = []) ∧
    (∀ e : Event, ∀ s : Seg, e.segs = some [s] → s.utf8 = none →
        eventText e = []) ∧
    parse_events [mkEvent "Hello", ⟨some [], none⟩, mkEvent "World"]
      = [toL "Hello", toL "World"] := by
  refine ⟨?_, ?_, ?_, by decide⟩
  · intro st e ht
    simp [step, ht]
  · intro e h
    simp [eventText, h]
  · intro e s h1 h2
    simp [eventText, h1, h2]

theorem C5_break_marker_witness :
    eventText ⟨none, none⟩ = [] ∧
    step ([toL "A"], toL "Hello") ⟨some [], none⟩
      = ([toL "A", toL "Hello"], []) := by
  refine ⟨C5_break_marker.2.1 ⟨none, none⟩ rfl, ?_⟩
  have h := C5_break_marker.1 ([toL "A"], toL "Hello") ⟨some [], none⟩ (by decide)
  exact h.trans (by decide)

/-- Claim C6: an event with non-blank text and no append flag starts a
new paragraph: the stripped buffer is emitted first iff it is
non-blank, and the buffer is then set to the event's stripped text,
replacing any prior content; the stream `[First], [Second]` yields
`["First", "Second"]`. -/
theorem C6_new_paragraph :
    (∀ st : List Str × Str, ∀ e : Event, strip (eventText e) ≠ [] →
        ¬ e.aAppend = some 1 →
        step st e = ((if strip st.2 = [] then st.1 else st.1 ++ [strip st.2]),
          strip (eventText e))) ∧
    parse_events [mkEvent "First", mkEvent "Second"]
      = [toL "First", toL "Second"] := by
  refine ⟨?_, by decide⟩
  intro st e ht ha
  by_cases hb : strip st.2 = []
  · simp [step, ht, ha, hb]
  · simp [step, ht, ha, hb]

theorem C6_new_paragraph_witness :
    step ([], toL "First") (mkEvent "Second") = ([toL "First"], toL "Second") := by
  have h := C6_new_paragraph.1 ([], toL "First") (mkEvent "Second")
    (by decide) (by decide)
  exact h.trans (by decide)

/-- Claim C7: a successfully loaded source whose event sequence has
zero events produces an empty paragraph sequence from `parse_cc`. -/
theorem C7_empty_event_sequence (out_file output_file : Option Str) :
    parse_events [] = [] ∧
    (parse_cc (some ⟨some []⟩) out_file output_file (fun _ => true)).1
      = .ok (some []) :=
  ⟨rfl, parse_cc_fst_ok ⟨some []⟩ out_file output_file⟩

/-- Claim C1 counterexample: with a loaded source whose paragraphs
would be `["Hello"]` and a destination that cannot be created,
`parse_cc` propagates the `OSError` — but the computed paragraphs are
NOT returned to the caller: the call's outcome is the bare error, not
the paragraph list the claim promises "regardless of write success or
failure". -/
theorem C1_counterexample :
    parse_events [mkEvent "Hello"] = [toL "Hello"] ∧
    parse_cc (some ⟨some [mkEvent "Hello"]⟩) (some (toL "out.txt")) none
        (fun _ => false) = (.error .ioError, []) :=
  ⟨by decide, rfl⟩

/-- Claim C1 as amended: for every source that loads successfully, a
failing write makes `parse_cc` propagate an I/O error to the caller,
and the paragraph list is returned only when every requested write
succeeds — a propagated write failure preempts the return, so the
caller does not receive the in-memory paragraphs in that case. -/
theorem C1_write_failure_propagates (d : Data) (out o : Option Str)
    (writeOk : Str → Bool) :
    (writeOk (pyStr out) = false →
       parse_cc (some d) out o writeOk = (.error .ioError, [])) ∧
    (∀ p2 : Str, writeOk (pyStr out) = true → o = some p2 → p2 ≠ [] →
       writeOk p2 = false →
       parse_cc (some d) out o writeOk
         = (.error .ioError,
            [(pyStr out, joinSpace (parse_events (d.events.getD [])))])) ∧
    (writeOk (pyStr out) = true →
       (∀ p2 : Str, o = some p2 → writeOk p2 = true) →
       (parse_cc (some d) out o writeOk).1
         = .ok (some (parse_events (d.events.getD [])))) := by
  refine ⟨?_, ?_, ?_⟩
  · intro h1
    simp [parse_cc, h1]
  · intro p2 h1 ho hne h2
    subst ho
    simp [parse_cc, h1, hne, h2]
  · intro h1 h2
    cases o with
    | none => simp [parse_cc, h1]
    | some p2 =>
      by_cases hne : p2 = []
      · simp [parse_cc, h1, hne]
      · simp [parse_cc, h1, hne, h2 p2 rfl]

theorem C1_write_failure_propagates_witness :
    parse_cc (some ⟨some []⟩) (some (toL "a")) none (fun _ => false)
      = (.error .ioError, []) ∧
    parse_cc (some ⟨some []⟩) (some (toL "a")) (some (toL "b"))
        (fun p => p == toL "a") = (.error .ioError, [(toL "a", [])]) :=
  ⟨(C1_write_failure_propagates ⟨some []⟩ (some (toL "a")) none
      (fun _ => false)).1 rfl,
   (C1_write_failure_propagates ⟨some []⟩ (some (toL "a")) (some (toL "b"))
      (fun p => p == toL "a")).2.1 (toL "b") (by decide) rfl (by decide)
      (by decide)⟩

/-- Claim C8: on every run of `parse_cc` that returns a paragraph list,
at least one write was performed and every destination received the
same blob — exactly the returned paragraphs joined by single spaces —
so reading any written destination back yields that join verbatim. -/
theorem C8_serialized_blob (load : Option Data) (out o : Option Str)
    (writeOk : Str → Bool) (ps : List Str) (ws : List (Str × Str)) :
    parse_cc load out o writeOk = (.ok (some ps), ws) →
    ws ≠ [] ∧ ∀ w ∈ ws, w.2 = joinSpace ps := by
  intro h
  cases load with
  | none =>
    exfalso
    simp only [parse_cc, Prod.mk.injEq] at h
    exact Option.noConfusion (Except.ok.inj h.1)
  | some d =>
    by_cases h1 : writeOk (pyStr out) = true
    · cases o with
      | none =>
        simp only [parse_cc, h1, if_true, Prod.mk.injEq, Except.ok.injEq,
          Option.some.injEq] at h
        obtain ⟨hps, hws⟩ := h
        subst hps
        rw [← hws]
        simp
      | some p2 =>
        by_cases hne : p2 = []
        · simp only [parse_cc, h1, hne, if_true, Prod.mk.injEq,
            Except.ok.injEq, Option.some.injEq] at h
          obtain ⟨hps, hws⟩ := h
          subst hps
          rw [← hws]
          simp
        · by_cases h2 : writeOk p2 = true
          · simp only [parse_cc, h1, hne, h2, if_true, if_false, if_neg hne,
              Prod.mk.injEq, Except.ok.injEq, Option.some.injEq] at h
            obtain ⟨hps, hws⟩ := h
            subst hps
            rw [← hws]
            simp
          · exfalso
            simp [parse_cc, h1, hne, h2] at h
    · exfalso
      simp [parse_cc, h1] at h

theorem C8_serialized_blob_witness :
    ([(toL "None", toL "Hi")] : List (Str × Str)) ≠ [] ∧
    ∀ w ∈ ([(toL "None", toL "Hi")] : List (Str × Str)),
      w.2 = joinSpace [toL "Hi"] :=
  C8_serialized_blob (some ⟨some [mkEvent "Hi"]⟩) none none (fun _ => true)
    [toL "Hi"] [(toL "None", toL "Hi")] rfl

/-- Claim C9: after a successful load, `parse_cc` always attempts the
first write, even when no `out_file` was supplied: the default `None`
is passed through `str()`, so the joined paragraphs are written to a
file literally named `"None"` (and if that path cannot be opened the
call fails) — the persistence side effect is not optional. -/
theorem C9_write_unconditional (d : Data) :
    parse_cc (some d) none none (fun _ => true)
      = (.ok (some (parse_events (d.events.getD []))),
         [(toL "None", joinSpace (parse_events (d.events.getD [])))]) ∧
    parse_cc (some d) none none (fun _ => false) = (.error .ioError, []) :=
  ⟨rfl, rfl⟩

/-- Claim C10: the two empty outcomes are distinguishable at the
interface: a failed load returns the absent result `None`, while a
loaded source whose event sequence is empty, missing, or all break
events returns the empty list — and those two values differ. -/
theorem C10_none_vs_empty (out o : Option Str) (writeOk : Str → Bool) :
    (parse_cc none out o writeOk).1 = .ok none ∧
    (parse_cc (some ⟨none⟩) out o (fun _ => true)).1 = .ok (some []) ∧
    (parse_cc (some ⟨some []⟩) out o (fun _ => true)).1 = .ok (some []) ∧
    (∀ evs : List Event, (∀ e ∈ evs, strip (eventText e) = []) →
      (parse_cc (some ⟨some evs⟩) out o (fun _ => true)).1 = .ok (some [])) ∧
    (Except.ok (none : Option (List Str)) : Except PyErr (Option (List Str)))
      ≠ .ok (some []) := by
  refine ⟨rfl, parse_cc_fst_ok ⟨none⟩ out o, parse_cc_fst_ok ⟨some []⟩ out o,
    ?_, by simp⟩
  intro evs hevs
  rw [parse_cc_fst_ok ⟨some evs⟩ out o]
  simp [parse_events_break evs hevs]

theorem C10_none_vs_empty_witness :
    (parse_cc (some ⟨some [(⟨some [], none⟩ : Event)]⟩) none none
        (fun _ => true)).1 = .ok (some []) :=
  (C10_none_vs_empty none none (fun _ => true)).2.2.2.1
    [⟨some [], none⟩] (by decide)

end CCParser
